import Mathlib

/-!
Verification of the MTG card-enrichment pipeline (`enrich_cards.py`,
`src/transformer.py`, `src/scryfall_client.py`): a shallow embedding of the
enrichment orchestrator, the progress tracker, the field extractor and the
remote lookup client, with theorems settling the specified properties.
-/

namespace MtgEnrich

/-- JSON-like values, modelling the Python objects decoded from API
responses and configuration/progress files. -/
inductive JVal where
  | jstr (s : String)
  | jnum (n : Int)
  | jbool (b : Bool)
  | jnull
  | jarr (xs : List JVal)
  | jobj (kvs : List (String × JVal))
deriving Repr

mutual

/-- Structural equality test on JSON values (Python `==` where we need it). -/
def JVal.beq : JVal → JVal → Bool
  | .jstr a, .jstr b => a == b
  | .jnum a, .jnum b => a == b
  | .jbool a, .jbool b => a == b
  | .jnull, .jnull => true
  | .jarr xs, .jarr ys => JVal.beqList xs ys
  | .jobj xs, .jobj ys => JVal.beqObj xs ys
  | _, _ => false

/-- Elementwise `JVal.beq` on lists. -/
def JVal.beqList : List JVal → List JVal → Bool
  | [], [] => true
  | a :: as, b :: bs => JVal.beq a b && JVal.beqList as bs
  | _, _ => false

/-- Elementwise `JVal.beq` on key-value lists. -/
def JVal.beqObj : List (String × JVal) → List (String × JVal) → Bool
  | [], [] => true
  | (k1, v1) :: as, (k2, v2) :: bs => k1 == k2 && JVal.beq v1 v2 && JVal.beqObj as bs
  | _, _ => false

end

instance : BEq JVal := ⟨JVal.beq⟩

/-- Python truthiness of a decoded JSON value (`if card_data:`). -/
def JVal.truthy : JVal → Bool
  | .jstr s => !(s == "")
  | .jnum n => !(n == 0)
  | .jbool b => b
  | .jnull => false
  | .jarr xs => !xs.isEmpty
  | .jobj kvs => !kvs.isEmpty

/-- Whether the character list `p` is an initial segment of `l`. -/
def listPrefixEq : List Char → List Char → Bool
  | [], _ => true
  | _ :: _, [] => false
  | a :: as, b :: bs => a == b && listPrefixEq as bs

/-- Python substring containment (the `in` operator on strings). -/
def strContains (s pat : String) : Bool :=
  (List.range (s.length + 1)).any (fun i => listPrefixEq pat.data (s.data.drop i))

/-- Python `d.get(k, default)`: only dictionaries have `.get`; any other
receiver raises (`AttributeError`), modelled by `Except.error`. -/
def jget : JVal → String → JVal → Except Unit JVal
  | .jobj kvs, k, d =>
      match kvs.find? (fun p => p.1 == k) with
      | some p => .ok p.2
      | none => .ok d
  | _, _, _ => .error ()

/-- Python `k in container` for a string key: key membership for dicts,
element equality for lists, substring for strings; `TypeError` otherwise. -/
def jContains : JVal → String → Except Unit Bool
  | .jobj kvs, k => .ok (kvs.any (fun p => p.1 == k))
  | .jarr xs, k => .ok (xs.any (fun v => v == .jstr k))
  | .jstr s, k => .ok (strContains s k)
  | _, _ => .error ()

/-- Python `container[k]` for a string key: dict lookup (`KeyError` when the
key is absent); `TypeError` for every other receiver. -/
def jIndex : JVal → String → Except Unit JVal
  | .jobj kvs, k =>
      match kvs.find? (fun p => p.1 == k) with
      | some p => .ok p.2
      | none => .error ()
  | _, _ => .error ()

/-- Python iteration `for x in container`: list elements, dict keys, or the
characters of a string; `TypeError` for non-iterables. -/
def jIter : JVal → Except Unit (List JVal)
  | .jarr xs => .ok xs
  | .jobj kvs => .ok (kvs.map (fun p => JVal.jstr p.1))
  | .jstr s => .ok (s.data.map (fun c => JVal.jstr (String.singleton c)))
  | _ => .error ()

/-- Python `','.join(xs)` over an already-materialised list: every element
must be a string, otherwise `TypeError`. -/
def pyJoinList (xs : List JVal) : Except Unit String :=
  if xs.all (fun v => match v with | .jstr _ => true | _ => false) then
    .ok (String.intercalate "," (xs.map (fun v => match v with | .jstr s => s | _ => "")))
  else .error ()

/-- Python `','.join(v)` for an arbitrary value: iterate it, then join. -/
def pyJoin (v : JVal) : Except Unit String := do
  let xs ← jIter v
  pyJoinList xs

/-- The normal-then-small URL collection applied to one `image_uris`
value, as in both branches of `_extract_image_urls`. -/
def faceUrls (iu : JVal) : Except Unit (List JVal) := do
  let hn ← jContains iu "normal"
  let l1 ← if hn then do
      let v ← jIndex iu "normal"
      pure [v]
    else pure ([] : List JVal)
  let hs ← jContains iu "small"
  let l2 ← if hs then do
      let v ← jIndex iu "small"
      pure [v]
    else pure ([] : List JVal)
  pure (l1 ++ l2)

/-- The `for face in card_data['card_faces']` loop of `_extract_image_urls`. -/
def facesLoop : List JVal → Except Unit (List JVal)
  | [] => .ok []
  | face :: rest => do
    let hi ← jContains face "image_uris"
    let here ← if hi then do
        let iu ← jIndex face "image_uris"
        faceUrls iu
      else pure ([] : List JVal)
    let there ← facesLoop rest
    pure (here ++ there)

/-- `_extract_image_urls` from `src/transformer.py`: prefer the top-level
`image_uris` pair, else walk `card_faces`; comma-join the collected URLs. -/
def extract_image_urls (card_data : JVal) : Except Unit String := do
  let hasIU ← jContains card_data "image_uris"
  let urls ← if hasIU then do
      let iu ← jIndex card_data "image_uris"
      faceUrls iu
    else do
      let hasCF ← jContains card_data "card_faces"
      if hasCF then do
        let cf ← jIndex card_data "card_faces"
        let faces ← jIter cf
        facesLoop faces
      else pure ([] : List JVal)
  pyJoinList urls

/-- `get_required_fields` from `src/transformer.py`: the 13 enrichment
columns, in source order. -/
def get_required_fields : List String :=
  ["mana_cost", "type_line", "oracle_text", "power", "toughness",
   "cmc", "colors", "color_identity", "rarity", "loyalty",
   "set_name", "collector_number", "image_uris"]

/-- The body of the `try` block of `extract_card_fields`: each field access
in source order, any raised exception short-circuiting as `Except.error`. -/
def tryExtract (card_data : JVal) : Except Unit (List (String × JVal)) := do
  let mana_cost ← jget card_data "mana_cost" (.jstr "")
  let type_line ← jget card_data "type_line" (.jstr "")
  let oracle_text ← jget card_data "oracle_text" (.jstr "")
  let power ← jget card_data "power" (.jstr "")
  let toughness ← jget card_data "toughness" (.jstr "")
  let cmc ← jget card_data "cmc" (.jstr "")
  let colors ← pyJoin (← jget card_data "colors" (.jarr []))
  let color_identity ← pyJoin (← jget card_data "color_identity" (.jarr []))
  let rarity ← jget card_data "rarity" (.jstr "")
  let loyalty ← jget card_data "loyalty" (.jstr "")
  let set_name ← jget card_data "set_name" (.jstr "")
  let collector_number ← jget card_data "collector_number" (.jstr "")
  let image_uris ← extract_image_urls card_data
  pure [("mana_cost", mana_cost), ("type_line", type_line),
        ("oracle_text", oracle_text), ("power", power),
        ("toughness", toughness), ("cmc", cmc),
        ("colors", .jstr colors), ("color_identity", .jstr color_identity),
        ("rarity", rarity), ("loyalty", loyalty), ("set_name", set_name),
        ("collector_number", collector_number), ("image_uris", .jstr image_uris)]

/-- The all-empty field set written by the `except` branch of
`extract_card_fields` (same keys, same order, every value `''`). -/
def allEmptyFields : List (String × JVal) :=
  get_required_fields.map (fun f => (f, JVal.jstr ""))

/-- `extract_card_fields` from `src/transformer.py`: the `try` body, with
any exception caught and replaced by the all-empty field set. -/
def extract_card_fields (card_data : JVal) : List (String × JVal) :=
  match tryExtract card_data with
  | .ok f => f
  | .error _ => allEmptyFields

/-- The HTTP-level outcome of one request made by the Scryfall client:
a response with a status code and a body (`none` when the body fails to
decode as JSON), or one of the exception classes the client catches. -/
inductive HttpOutcome where
  | response (status : Nat) (body : Option JVal)
  | timeout
  | requestError
  | otherError
deriving Repr

/-- `ScryfallClient.get_card_by_id` from `src/scryfall_client.py`: the
decoded record on HTTP 200 with a parseable body; `None` for 404, for every
other status, and for every caught exception (timeout, request error,
anything else). -/
def get_card_by_id : HttpOutcome → Option JVal
  | .response 200 (some j) => some j
  | _ => none

/-- One call to the client, as the orchestrator's `try` block sees it:
a returned dictionary, a returned `None`, or a raised exception. -/
inductive FetchResult where
  | ok (j : JVal)
  | retNone
  | exc

/-- A client driven by per-attempt HTTP outcomes never raises: its calls
return `get_card_by_id` of the underlying outcome. -/
def clientFetch (env : Nat → HttpOutcome) (attempt : Nat) : FetchResult :=
  match get_card_by_id (env attempt) with
  | some j => .ok j
  | none => .retNone

/-- Python truthiness of the `card_data` variable after the retry loop. -/
def resultTruthy : Option JVal → Bool
  | none => false
  | some j => j.truthy

/-- The retry loop of `enrich_card_data` (`for attempt in range(max_retries)`),
from attempt number `attempt` with current `card_data` value `cur`.
Returns the final `card_data`, the number of fetch calls made, and the
total backoff sleep (`rate_limit * 2` before every non-final failed
attempt). A truthy record breaks out of the loop; a returned `None`
overwrites `card_data`; a raised exception leaves it unchanged. -/
def retryGo (f : Nat → FetchResult) (maxRetries : Nat) (rateLimit : ℚ) :
    List Nat → Option JVal → Option JVal × Nat × ℚ
  | [], cur => (cur, 0, 0)
  | attempt :: rest, cur =>
    match f attempt with
    | .ok j =>
      if j.truthy then (some j, 1, 0)
      else
        let s : ℚ := if attempt < maxRetries - 1 then rateLimit * 2 else 0
        let r := retryGo f maxRetries rateLimit rest (some j)
        (r.1, r.2.1 + 1, s + r.2.2)
    | .retNone =>
        let s : ℚ := if attempt < maxRetries - 1 then rateLimit * 2 else 0
        let r := retryGo f maxRetries rateLimit rest none
        (r.1, r.2.1 + 1, s + r.2.2)
    | .exc =>
        let s : ℚ := if attempt < maxRetries - 1 then rateLimit * 2 else 0
        let r := retryGo f maxRetries rateLimit rest cur
        (r.1, r.2.1 + 1, s + r.2.2)

/-- The whole retry loop for one row: attempt numbers
`range(max_retries)`, starting with `card_data = None`. -/
def retryFetch (f : Nat → FetchResult) (maxRetries : Nat) (rateLimit : ℚ) :
    Option JVal × Nat × ℚ :=
  retryGo f maxRetries rateLimit (List.range maxRetries) none

/-- One input row: its Scryfall ID and display name (`row['Scryfall ID']`,
`row['Name']`); other CSV columns do not influence the orchestrator. -/
structure Row where
  scryfallId : String
  name : String
deriving DecidableEq, Repr

/-- How one processed row ended. -/
inductive RowOutcome where
  | success
  | failed
deriving DecidableEq, Repr

/-- The observable per-row record of one loop iteration: original table
position, identifier, number of fetch calls, backoff sleep, unconditional
row-level sleep, and the outcome. -/
structure RowTrace where
  idx : Nat
  id : String
  attempts : Nat
  backoffSleep : ℚ
  rowSleep : ℚ
  outcome : RowOutcome
deriving DecidableEq, Repr

/-- Python set insertion (`set.add`) on the insertion-ordered,
duplicate-free list representing the set. -/
def listInsert (l : List String) (x : String) : List String :=
  if x ∈ l then l else l ++ [x]

/-- The state threaded through the orchestrator loop: the enrichment
columns of every output row, the in-memory completed set (an
insertion-ordered duplicate-free list), the progress file's content
(`none` when the file does not exist), and the counters. -/
structure OrchState where
  table : List (List (String × JVal))
  completed : List String
  savedFile : Option (List String)
  successes : Nat
  failures : Nat
  trace : List RowTrace

/-- The trace one row produces; it depends only on the fetch behaviour for
that row's identifier, never on the loop state. -/
def traceOfRow (fetch : String → Nat → FetchResult) (rateLimit : ℚ)
    (maxRetries : Nat) (idx : Nat) (row : Row) : RowTrace :=
  let r := retryFetch (fetch row.scryfallId) maxRetries rateLimit
  { idx := idx, id := row.scryfallId, attempts := r.2.1, backoffSleep := r.2.2,
    rowSleep := rateLimit,
    outcome := if resultTruthy r.1 then .success else .failed }

/-- `enriched_df.at[index, field] = value`: overwrite one named cell. -/
def setField (fields : List (String × JVal)) (k : String) (v : JVal) :
    List (String × JVal) :=
  fields.map (fun p => if p.1 = k then (k, v) else p)

/-- `for field, value in extracted_fields.items(): ...`: fold the cell
writes over one row. -/
def mergeFields (fields extracted : List (String × JVal)) : List (String × JVal) :=
  extracted.foldl (fun fs kv => setField fs kv.1 kv.2) fields

/-- One iteration of the enrichment loop (lines 149-194 of
`enrich_cards.py`): retryFetch, then on a truthy record extract, merge at
the row's original index, mark completed and checkpoint on every 10th
success; otherwise count the row failed. -/
def processRow (fetch : String → Nat → FetchResult) (rateLimit : ℚ)
    (maxRetries : Nat) (st : OrchState) (ir : Nat × Row) : OrchState :=
  let r := retryFetch (fetch ir.2.scryfallId) maxRetries rateLimit
  let t := traceOfRow fetch rateLimit maxRetries ir.1 ir.2
  match r.1 with
  | some j =>
    if j.truthy then
      let extracted := extract_card_fields j
      let table2 := st.table.set ir.1 (mergeFields (st.table.getD ir.1 []) extracted)
      let completed2 := listInsert st.completed ir.2.scryfallId
      let successes2 := st.successes + 1
      let savedFile2 := if successes2 % 10 == 0 then some completed2 else st.savedFile
      { table := table2, completed := completed2, savedFile := savedFile2,
        successes := successes2, failures := st.failures, trace := st.trace ++ [t] }
    else
      { st with failures := st.failures + 1, trace := st.trace ++ [t] }
  | none => { st with failures := st.failures + 1, trace := st.trace ++ [t] }

/-- The pre-loop partition (lines 134-141): the rows to process are those
whose identifier is not in the progress set loaded at start, in input
order, paired with their original positions. -/
def cards_to_process (df : List Row) (completed0 : List String) :
    List (Nat × Row) :=
  df.enum.filter (fun p => decide (p.2.scryfallId ∉ completed0))

/-- The state at loop entry: every output row carries the 13 enrichment
columns initialised to the empty string (lines 123-127). -/
def initState (df : List Row) (completed0 : List String)
    (file0 : Option (List String)) : OrchState :=
  { table := df.map (fun _ => allEmptyFields), completed := completed0,
    savedFile := file0, successes := 0, failures := 0, trace := [] }

/-- The orchestrator's main loop over the rows to process. -/
def enrichLoop (fetch : String → Nat → FetchResult) (rateLimit : ℚ)
    (maxRetries : Nat) (cards : List (Nat × Row)) (st : OrchState) : OrchState :=
  cards.foldl (processRow fetch rateLimit maxRetries) st

/-- `enrich_card_data` from `enrich_cards.py`: partition, loop, and the
unconditional final `save_progress()`. -/
def enrich_card_data (df : List Row) (fetch : String → Nat → FetchResult)
    (completed0 : List String) (file0 : Option (List String))
    (rateLimit : ℚ) (maxRetries : Nat) : OrchState :=
  let st := enrichLoop fetch rateLimit maxRetries (cards_to_process df completed0)
    (initState df completed0 file0)
  { st with savedFile := some st.completed }

/-- The same run interrupted (`KeyboardInterrupt`) at a row boundary after
`k` processed rows: the loop stops and the final save is never reached, so
the progress file keeps its last checkpoint. -/
def enrichInterrupted (df : List Row) (fetch : String → Nat → FetchResult)
    (completed0 : List String) (file0 : Option (List String))
    (rateLimit : ℚ) (maxRetries : Nat) (k : Nat) : OrchState :=
  enrichLoop fetch rateLimit maxRetries ((cards_to_process df completed0).take k)
    (initState df completed0 file0)

/-- What `main` leaves behind: the process exit code, the progress file's
final content (`none` when absent), whether it was deleted, and whether
the output CSV was written. -/
structure MainResult where
  exitCode : Nat
  progressFile : Option (List String)
  progressDeleted : Bool
  outputWritten : Bool

/-- The control flow of `main` (`enrich_cards.py` lines 309-350): input
validation, unconditional progress loading, the enrichment run, the CSV
write, and the progress-file cleanup guarded by the `try`/`except` blocks.
`interruptAfter = some k` is a user interrupt at the row boundary after `k`
processed rows; `writeOk = false` is an exception while writing the output. -/
def mainRun (df : List Row) (fetch : String → Nat → FetchResult)
    (file0 : Option (List String)) (rateLimit : ℚ) (maxRetries : Nat)
    (inputOk : Bool) (interruptAfter : Option Nat) (writeOk : Bool) : MainResult :=
  if !inputOk then
    { exitCode := 1, progressFile := file0, progressDeleted := false,
      outputWritten := false }
  else
    let completed0 := file0.getD []
    match interruptAfter with
    | some k =>
      let st := enrichInterrupted df fetch completed0 file0 rateLimit maxRetries k
      { exitCode := 1, progressFile := st.savedFile, progressDeleted := false,
        outputWritten := false }
    | none =>
      let st := enrich_card_data df fetch completed0 file0 rateLimit maxRetries
      if writeOk then
        { exitCode := 0,
          progressFile := if st.savedFile.isSome then none else st.savedFile,
          progressDeleted := st.savedFile.isSome, outputWritten := true }
      else
        { exitCode := 1, progressFile := st.savedFile, progressDeleted := false,
          outputWritten := false }

/-!  ### The configuration resolution of `main` (lines 284-293)  -/

/-- The optional JSON configuration file: the four settings `main` reads
from it, each possibly absent. -/
structure ConfigJson where
  log_level : Option String
  log_file : Option String
  rate_limit : Option ℚ
  max_retries : Option Nat

/-- `log_level = args.log_level or config.get('log_level', 'INFO')`:
Python `or` keeps the flag value only when it is truthy (non-empty). -/
def resolve_log_level (arg : String) (cfg : ConfigJson) : String :=
  if arg ≠ "" then arg else cfg.log_level.getD "INFO"

/-- `log_file = args.log_file or config.get('log_file')`. -/
def resolve_log_file (arg : Option String) (cfg : ConfigJson) : Option String :=
  match arg with
  | some s => if s ≠ "" then some s else cfg.log_file
  | none => cfg.log_file

/-- `rate_limit = args.rate_limit or config.get('rate_limit', 0.1)`:
the flag value is kept only when it is truthy (non-zero). -/
def resolve_rate_limit (arg : ℚ) (cfg : ConfigJson) : ℚ :=
  if arg ≠ 0 then arg else cfg.rate_limit.getD (1 / 10)

/-- `max_retries = args.max_retries or config.get('max_retries', 3)`. -/
def resolve_max_retries (arg : Nat) (cfg : ConfigJson) : Nat :=
  if arg ≠ 0 then arg else cfg.max_retries.getD 3

/-!  ### The progress loader (`EnrichmentProgress.load_progress`)  -/

/-- What the progress file holds at load time: absent, text `json.load`
cannot parse, or text parsing to a JSON value. -/
inductive ProgressFile where
  | missing
  | unparseable
  | parsed (j : JVal)

/-- Whether a decoded JSON value is hashable in Python (may enter a set). -/
def jHashable : JVal → Bool
  | .jarr _ => false
  | .jobj _ => false
  | _ => true

/-- Python set insertion for decoded JSON elements. -/
def listInsertJ (l : List JVal) (x : JVal) : List JVal :=
  if l.any (fun y => JVal.beq y x) then l else l ++ [x]

/-- Python `set(v)`: iterate `v` and deduplicate; `TypeError` when `v` is
not iterable or an element is unhashable. -/
def pySet (v : JVal) : Except Unit (List JVal) := do
  let xs ← jIter v
  if xs.all jHashable then pure (xs.foldl listInsertJ []) else .error ()

/-- The body of the `try` block of `load_progress` applied to the parsed
document: `set(data.get('completed_cards', []))`. -/
def loadInterp (j : JVal) : Except Unit (List JVal) := do
  pySet (← jget j "completed_cards" (.jarr []))

/-- `EnrichmentProgress.load_progress`: a missing file leaves the empty
set silently; a parse failure or an exception while interpreting the
document is caught, logged as a warning (the returned flag) and leaves the
empty set; otherwise the interpreted set is kept. -/
def load_progress (fc : ProgressFile) : List JVal × Bool :=
  match fc with
  | .missing => ([], false)
  | .unparseable => ([], true)
  | .parsed j =>
    match loadInterp j with
    | .ok s => (s, false)
    | .error _ => ([], true)

/-!  ### Concrete scenarios used to settle the claims  -/

/-- A deterministic remote service: every identifier resolves, and its
record carries the identifier in `mana_cost`. -/
def resumeFetch : String → Nat → FetchResult :=
  fun id _ => FetchResult.ok (JVal.jobj [("mana_cost", JVal.jstr id)])

/-- Eleven rows with distinct identifiers: enough for one checkpoint (10
successes) plus one remaining row. -/
def resumeDf : List Row :=
  [⟨"c0", "n0"⟩, ⟨"c1", "n1"⟩, ⟨"c2", "n2"⟩, ⟨"c3", "n3"⟩, ⟨"c4", "n4"⟩,
   ⟨"c5", "n5"⟩, ⟨"c6", "n6"⟩, ⟨"c7", "n7"⟩, ⟨"c8", "n8"⟩, ⟨"c9", "n9"⟩,
   ⟨"c10", "n10"⟩]

/-- The first ten identifiers of `resumeDf`: the checkpoint saved after
the tenth success. -/
def resumeSaved : List String :=
  ["c0", "c1", "c2", "c3", "c4", "c5", "c6", "c7", "c8", "c9"]

/-- A record whose `colors` value is a number: `','.join(5)` raises inside
`extract_card_fields`, which swallows the exception. -/
def malformedRecord : JVal := JVal.jobj [("colors", JVal.jnum 5)]

end MtgEnrich

namespace MtgEnrich

/-!  ### Lemmas about the retry loop  -/

/-- A fetch that raises on every attempt is called once per attempt
number, never succeeds, and sleeps `rate_limit * 2` before every attempt
except the last. -/
theorem retryGo_noRecord (f : Nat → FetchResult) (mr : Nat) (rl : ℚ)
    (h : ∀ a, f a = FetchResult.retNone ∨ f a = FetchResult.exc) :
    ∀ (k a : Nat), a + k = mr →
      retryGo f mr rl (List.range' a k) none
        = (none, k, ((k - 1 : ℕ) : ℚ) * (rl * 2)) := by
  intro k
  induction k with
  | zero => intro a ha; simp [retryGo, List.range']
  | succ n ih =>
    intro a ha
    have hrange : List.range' a (n + 1) = a :: List.range' (a + 1) n := by
      simp [List.range']
    rw [hrange]
    have hrec := ih (a + 1) (by omega)
    rcases Nat.eq_zero_or_pos n with hn | hn
    · subst hn
      have hs : ¬ a < mr - 1 := by omega
      rcases h a with ha1 | ha1 <;> simp [retryGo, ha1, hs, List.range']
    · have hs : a < mr - 1 := by omega
      have hcast : ((n - 1 : ℕ) : ℚ) = (n : ℚ) - 1 := Nat.cast_sub hn
      rcases h a with ha1 | ha1 <;>
        · simp only [retryGo, ha1, hrec, if_pos hs, Nat.add_sub_cancel,
            Prod.mk.injEq, true_and]
          rw [hcast]; ring

/-- The whole retry loop under a fetch that never produces a record. -/
theorem retryFetch_noRecord (f : Nat → FetchResult) (mr : Nat) (rl : ℚ)
    (h : ∀ a, f a = FetchResult.retNone ∨ f a = FetchResult.exc) :
    retryFetch f mr rl = (none, mr, ((mr - 1 : ℕ) : ℚ) * (rl * 2)) := by
  rw [retryFetch, List.range_eq_range']
  exact retryGo_noRecord f mr rl h mr 0 (by omega)

/-!  ### Lemmas about the orchestrator loop  -/

/-- Each loop iteration appends exactly its row's trace entry. -/
theorem processRow_trace (fetch : String → Nat → FetchResult) (rl : ℚ)
    (mr : Nat) (st : OrchState) (ir : Nat × Row) :
    (processRow fetch rl mr st ir).trace
      = st.trace ++ [traceOfRow fetch rl mr ir.1 ir.2] := by
  unfold processRow
  rcases hr : (retryFetch (fetch ir.2.scryfallId) mr rl).1 with _ | j
  · simp [hr]
  · simp only [hr]
    split <;> rfl

/-- Counters, completed set, table and checkpoint aside, the loop's trace
is the input trace followed by one entry per processed row, each depending
only on that row and the fetch behaviour. -/
theorem enrichLoop_trace (fetch : String → Nat → FetchResult) (rl : ℚ)
    (mr : Nat) :
    ∀ (cards : List (Nat × Row)) (st : OrchState),
      (enrichLoop fetch rl mr cards st).trace
        = st.trace ++ cards.map (fun ir => traceOfRow fetch rl mr ir.1 ir.2) := by
  intro cards
  induction cards with
  | nil => intro st; simp [enrichLoop]
  | cons c cs ih =>
    intro st
    have h1 : enrichLoop fetch rl mr (c :: cs) st
        = enrichLoop fetch rl mr cs (processRow fetch rl mr st c) := rfl
    rw [h1, ih, processRow_trace]
    simp

/-- The trace of a full `enrich_card_data` run: one entry per card to
process, in order. -/
theorem enrich_trace (df : List Row) (fetch : String → Nat → FetchResult)
    (completed0 : List String) (file0 : Option (List String))
    (rl : ℚ) (mr : Nat) :
    (enrich_card_data df fetch completed0 file0 rl mr).trace
      = (cards_to_process df completed0).map
          (fun ir => traceOfRow fetch rl mr ir.1 ir.2) := by
  show (enrichLoop fetch rl mr (cards_to_process df completed0)
      (initState df completed0 file0)).trace = _
  rw [enrichLoop_trace]
  rfl

/-!  ### Lemmas about column stability  -/

/-- Overwriting one cell never changes the column names. -/
theorem setField_keys (fs : List (String × JVal)) (k : String) (v : JVal) :
    (setField fs k v).map Prod.fst = fs.map Prod.fst := by
  induction fs with
  | nil => rfl
  | cons p ps ih =>
    simp only [setField, List.map_cons] at *
    rw [ih]
    congr 1
    split <;> simp_all

/-- Merging extracted cells never changes the column names. -/
theorem mergeFields_keys (ex : List (String × JVal)) :
    ∀ fs, (mergeFields fs ex).map Prod.fst = fs.map Prod.fst := by
  induction ex with
  | nil => intro fs; rfl
  | cons kv ex ih =>
    intro fs
    have h1 : mergeFields fs (kv :: ex) = mergeFields (setField fs kv.1 kv.2) ex := rfl
    rw [h1, ih, setField_keys]

/-- The all-empty row has exactly the required columns. -/
theorem allEmptyFields_keys : allEmptyFields.map Prod.fst = get_required_fields := by
  simp [allEmptyFields, get_required_fields]

/-- Membership in `List.set`: the element was already there, or it is the
written value and the position was in range. -/
theorem mem_set_cases {α : Type} (l : List α) (n : Nat) (a r : α)
    (hr : r ∈ l.set n a) : r ∈ l ∨ (r = a ∧ n < l.length) := by
  induction l generalizing n with
  | nil => simp [List.set] at hr
  | cons x xs ih =>
    cases n with
    | zero =>
      rcases List.mem_cons.1 hr with h1 | h1
      · exact Or.inr ⟨h1, by simp⟩
      · exact Or.inl (List.mem_cons_of_mem x h1)
    | succ m =>
      rcases List.mem_cons.1 hr with h1 | h1
      · exact Or.inl (h1 ▸ List.mem_cons_self x xs)
      · rcases ih m h1 with h2 | ⟨h2, h3⟩
        · exact Or.inl (List.mem_cons_of_mem x h2)
        · exact Or.inr ⟨h2, by simp; omega⟩

/-- `getD` after writing a different position is unchanged. -/
theorem set_getD_ne {α : Type} (l : List α) (n i : Nat) (a d : α)
    (h : n ≠ i) : (l.set n a).getD i d = l.getD i d := by
  induction l generalizing n i with
  | nil => simp [List.set]
  | cons x xs ih =>
    cases n with
    | zero =>
      cases i with
      | zero => exact absurd rfl h
      | succ j => simp [List.set, List.getD]
    | succ m =>
      cases i with
      | zero => simp [List.set, List.getD]
      | succ j =>
        simp only [List.set, List.getD_cons_succ]
        exact ih m j (fun hmj => h (by rw [hmj]))

/-- `getD` on a constant-mapped list is that constant. -/
theorem getD_map_const {α β : Type} (l : List α) (b : β) (i : Nat) :
    (l.map (fun _ => b)).getD i b = b := by
  induction l generalizing i with
  | nil => simp [List.getD]
  | cons x xs ih =>
    cases i with
    | zero => rfl
    | succ j => exact ih j

/-- An in-range `getD` is a member of the list. -/
theorem getD_mem_of_lt {α : Type} (l : List α) (i : Nat) (d : α)
    (h : i < l.length) : l.getD i d ∈ l := by
  induction l generalizing i with
  | nil => simp at h
  | cons x xs ih =>
    cases i with
    | zero => exact List.mem_cons_self x xs
    | succ j => exact List.mem_cons_of_mem x (ih j (by simpa using h))

/-- What one loop iteration does to the table: either the row failed and
the table is untouched, or a truthy record was fetched, its extraction
merged at the row's original index, and the row's trace entry says
success. -/
theorem processRow_cases (fetch : String → Nat → FetchResult) (rl : ℚ)
    (mr : Nat) (st : OrchState) (ir : Nat × Row) :
    ((processRow fetch rl mr st ir).table = st.table
        ∧ (traceOfRow fetch rl mr ir.1 ir.2).outcome = RowOutcome.failed)
    ∨ ∃ j, (retryFetch (fetch ir.2.scryfallId) mr rl).1 = some j
        ∧ j.truthy = true
        ∧ (processRow fetch rl mr st ir).table
            = st.table.set ir.1
                (mergeFields (st.table.getD ir.1 []) (extract_card_fields j))
        ∧ (traceOfRow fetch rl mr ir.1 ir.2).outcome = RowOutcome.success := by
  unfold processRow traceOfRow
  rcases hr : (retryFetch (fetch ir.2.scryfallId) mr rl).1 with _ | j
  · left
    constructor
    · simp [hr]
    · simp [hr, resultTruthy]
  · by_cases hj : j.truthy
    · right
      refine ⟨j, rfl, hj, by simp [hr, hj], by simp [hr, resultTruthy, hj]⟩
    · left
      constructor
      · simp [hr, hj]
      · simp [hr, resultTruthy, hj]

/-- Column stability is preserved by one loop iteration. -/
theorem processRow_keys (fetch : String → Nat → FetchResult) (rl : ℚ)
    (mr : Nat) (st : OrchState) (ir : Nat × Row)
    (h : ∀ fs ∈ st.table, fs.map Prod.fst = get_required_fields) :
    ∀ fs ∈ (processRow fetch rl mr st ir).table,
      fs.map Prod.fst = get_required_fields := by
  intro fs hfs
  rcases processRow_cases fetch rl mr st ir with ⟨h1, _⟩ | ⟨j, _, _, h1, _⟩
  · rw [h1] at hfs
    exact h fs hfs
  · rw [h1] at hfs
    rcases mem_set_cases _ _ _ _ hfs with hmem | ⟨heq, hlt⟩
    · exact h fs hmem
    · subst heq
      rw [mergeFields_keys]
      exact h _ (getD_mem_of_lt st.table ir.1 [] hlt)

/-- Column stability is preserved by the whole loop. -/
theorem enrichLoop_keys (fetch : String → Nat → FetchResult) (rl : ℚ)
    (mr : Nat) :
    ∀ (cards : List (Nat × Row)) (st : OrchState),
      (∀ fs ∈ st.table, fs.map Prod.fst = get_required_fields) →
      ∀ fs ∈ (enrichLoop fetch rl mr cards st).table,
        fs.map Prod.fst = get_required_fields := by
  intro cards
  induction cards with
  | nil => intro st h; exact h
  | cons c cs ih =>
    intro st h
    exact ih (processRow fetch rl mr st c) (processRow_keys fetch rl mr st c h)

/-- A row position with no successful trace entry still holds the
all-empty field row, through one loop iteration. -/
theorem processRow_untouched (fetch : String → Nat → FetchResult) (rl : ℚ)
    (mr : Nat) (st : OrchState) (ir : Nat × Row)
    (h : ∀ i, (∀ t ∈ st.trace, ¬(t.idx = i ∧ t.outcome = RowOutcome.success)) →
      st.table.getD i allEmptyFields = allEmptyFields) :
    ∀ i, (∀ t ∈ (processRow fetch rl mr st ir).trace,
        ¬(t.idx = i ∧ t.outcome = RowOutcome.success)) →
      (processRow fetch rl mr st ir).table.getD i allEmptyFields
        = allEmptyFields := by
  intro i hi
  have htr := processRow_trace fetch rl mr st ir
  have hold : ∀ t ∈ st.trace, ¬(t.idx = i ∧ t.outcome = RowOutcome.success) := by
    intro t ht
    exact hi t (by rw [htr]; exact List.mem_append_left _ ht)
  rcases processRow_cases fetch rl mr st ir with ⟨h1, _⟩ | ⟨j, _, _, h1, houtc⟩
  · rw [h1]
    exact h i hold
  · have hmemt : traceOfRow fetch rl mr ir.1 ir.2
        ∈ (processRow fetch rl mr st ir).trace := by
      rw [htr]
      exact List.mem_append_right _ (List.mem_singleton_self _)
    have hne : ir.1 ≠ i := by
      intro hcontra
      exact hi _ hmemt ⟨by simp [traceOfRow, hcontra], houtc⟩
    rw [h1, set_getD_ne st.table ir.1 i _ allEmptyFields hne]
    exact h i hold

/-- A row position with no successful trace entry still holds the
all-empty field row, through the whole loop. -/
theorem enrichLoop_untouched (fetch : String → Nat → FetchResult) (rl : ℚ)
    (mr : Nat) :
    ∀ (cards : List (Nat × Row)) (st : OrchState),
      (∀ i, (∀ t ∈ st.trace, ¬(t.idx = i ∧ t.outcome = RowOutcome.success)) →
        st.table.getD i allEmptyFields = allEmptyFields) →
      ∀ i, (∀ t ∈ (enrichLoop fetch rl mr cards st).trace,
          ¬(t.idx = i ∧ t.outcome = RowOutcome.success)) →
        (enrichLoop fetch rl mr cards st).table.getD i allEmptyFields
          = allEmptyFields := by
  intro cards
  induction cards with
  | nil => intro st h; exact h
  | cons c cs ih =>
    intro st h
    exact ih (processRow fetch rl mr st c)
      (processRow_untouched fetch rl mr st c h)

/-- When the `try` body of the extractor returns, the returned field set
has exactly the 13 required keys, in order. -/
theorem tryExtract_ok_keys (j : JVal) (f : List (String × JVal))
    (h : tryExtract j = .ok f) : f.map Prod.fst = get_required_fields := by
  unfold tryExtract at h
  simp only [bind, Except.bind, pure, Except.pure] at h
  repeat' split at h
  any_goals exact Except.noConfusion h
  injection h with h2
  subst h2
  simp [get_required_fields]

/-!  ### The claims  -/

/-- C6. Field Extractor totality: `extract_card_fields` is a total
function; every result carries all 13 fields, and whenever the `try` body
raises (malformed input), the caught exception yields the all-empty field
set instead of propagating. -/
theorem extractor_total_empty_on_error (j : JVal) :
    (extract_card_fields j).map Prod.fst = get_required_fields
    ∧ (tryExtract j = Except.error () → extract_card_fields j = allEmptyFields) := by
  constructor
  · cases htr : tryExtract j with
    | ok f =>
      have he : extract_card_fields j = f := by
        unfold extract_card_fields; rw [htr]
      rw [he]
      exact tryExtract_ok_keys j f htr
    | error e =>
      have he : extract_card_fields j = allEmptyFields := by
        unfold extract_card_fields; rw [htr]
      rw [he]
      exact allEmptyFields_keys
  · intro h
    unfold extract_card_fields
    rw [h]

/-- C6 witness: a number is not a dictionary, so the `try` body raises at
its first `.get`; the extractor still returns the all-empty field set. -/
theorem extractor_total_witness :
    extract_card_fields (JVal.jnum 5) = allEmptyFields :=
  (extractor_total_empty_on_error (JVal.jnum 5)).2 rfl

/-- C4. Schema completeness: every row of the output table carries exactly
the 13 enrichment columns, and any row position with no successful trace
entry still holds the all-empty row (every column the empty string). -/
theorem output_schema_complete (df : List Row)
    (fetch : String → Nat → FetchResult) (completed0 : List String)
    (file0 : Option (List String)) (rl : ℚ) (mr : Nat) :
    (∀ fs ∈ (enrich_card_data df fetch completed0 file0 rl mr).table,
        fs.map Prod.fst = get_required_fields)
    ∧ (∀ i, (∀ t ∈ (enrich_card_data df fetch completed0 file0 rl mr).trace,
          ¬(t.idx = i ∧ t.outcome = RowOutcome.success)) →
        (enrich_card_data df fetch completed0 file0 rl mr).table.getD i
            allEmptyFields = allEmptyFields) := by
  constructor
  · intro fs hfs
    refine enrichLoop_keys fetch rl mr (cards_to_process df completed0)
      (initState df completed0 file0) ?_ fs hfs
    intro fs0 hfs0
    rcases List.mem_map.1 hfs0 with ⟨r, _, heq⟩
    rw [← heq]
    exact allEmptyFields_keys
  · intro i hi
    refine enrichLoop_untouched fetch rl mr (cards_to_process df completed0)
      (initState df completed0 file0) ?_ i hi
    intro i2 _
    exact getD_map_const df allEmptyFields i2

/-- C4 witness: a one-row run whose only fetch fails keeps the full
column set and the all-empty default in its row. -/
theorem output_schema_complete_witness :
    ((enrich_card_data [⟨"w1", "W1"⟩] (fun _ _ => FetchResult.retNone)
        [] none 0 3).table.getD 0 []).map Prod.fst = get_required_fields
    ∧ (enrich_card_data [⟨"w1", "W1"⟩] (fun _ _ => FetchResult.retNone)
        [] none 0 3).table.getD 0 allEmptyFields = allEmptyFields := by
  constructor
  · exact (output_schema_complete [⟨"w1", "W1"⟩] (fun _ _ => FetchResult.retNone)
      [] none 0 3).1 _ (getD_mem_of_lt _ 0 [] (by decide))
  · exact (output_schema_complete [⟨"w1", "W1"⟩] (fun _ _ => FetchResult.retNone)
      [] none 0 3).2 0 (by decide)

/-- C10. Skip decisions are fixed before the loop: the rows entering the
fetch loop are exactly the positions whose identifier was outside the
progress set loaded at start, in input order — marking identifiers
completed during the run never removes a later (duplicate) row, as the
second conjunct shows on a duplicated identifier whose both occurrences
are fetched in the same run. -/
theorem skip_set_fixed_before_loop (df : List Row)
    (fetch : String → Nat → FetchResult) (completed0 : List String)
    (file0 : Option (List String)) (rl : ℚ) (mr : Nat) :
    ((enrich_card_data df fetch completed0 file0 rl mr).trace.map
        (fun t => (t.idx, t.id))
      = (df.enum.filter (fun p => decide (p.2.scryfallId ∉ completed0))).map
          (fun p => (p.1, p.2.scryfallId)))
    ∧ (enrich_card_data [⟨"d", "D1"⟩, ⟨"d", "D2"⟩]
        (fun _ _ => FetchResult.ok (JVal.jobj [("cmc", JVal.jnum 1)]))
        [] none 0 3).trace.map (fun t => (t.idx, t.id, t.attempts, t.outcome))
      = [(0, "d", 1, RowOutcome.success), (1, "d", 1, RowOutcome.success)] := by
  constructor
  · rw [enrich_trace, List.map_map]
    rfl
  · decide

/-- C3. Retry bound: the batch processes every selected row (no abort),
and a row whose fetch raises on every attempt is attempted exactly
`max_retries` times, is counted failed, sleeps `(max_retries - 1) *
rate_limit * 2` across retry backoffs and one `rate_limit` row-level
sleep. -/
theorem retry_bound_transient (df : List Row)
    (fetch : String → Nat → FetchResult) (completed0 : List String)
    (file0 : Option (List String)) (rl : ℚ) (mr : Nat) :
    (enrich_card_data df fetch completed0 file0 rl mr).trace.length
        = (cards_to_process df completed0).length
    ∧ (∀ t ∈ (enrich_card_data df fetch completed0 file0 rl mr).trace,
        (∀ a, fetch t.id a = FetchResult.exc) →
        t.attempts = mr ∧ t.outcome = RowOutcome.failed
          ∧ t.backoffSleep = ((mr - 1 : ℕ) : ℚ) * (rl * 2)
          ∧ t.rowSleep = rl) := by
  constructor
  · rw [enrich_trace]
    simp
  · intro t ht hexc
    rw [enrich_trace] at ht
    rcases List.mem_map.1 ht with ⟨ir, _, heq⟩
    subst heq
    have hf := retryFetch_noRecord (fetch ir.2.scryfallId) mr rl
      (fun a => Or.inr (hexc a))
    refine ⟨?_, ?_, ?_, rfl⟩ <;> simp [traceOfRow, hf, resultTruthy]

/-- C3 witness: a single row whose fetch always raises, with
`max_retries = 3` and `rate_limit = 1`. -/
theorem retry_bound_transient_witness :
    (enrich_card_data [⟨"x1", "X"⟩] (fun _ _ => FetchResult.exc)
        [] none 1 3).trace.length = 1
    ∧ ((enrich_card_data [⟨"x1", "X"⟩] (fun _ _ => FetchResult.exc)
        [] none 1 3).trace.getD 0 ⟨0, "", 0, 0, 0, RowOutcome.failed⟩).attempts = 3
    ∧ ((enrich_card_data [⟨"x1", "X"⟩] (fun _ _ => FetchResult.exc)
        [] none 1 3).trace.getD 0 ⟨0, "", 0, 0, 0, RowOutcome.failed⟩).outcome
        = RowOutcome.failed
    ∧ ((enrich_card_data [⟨"x1", "X"⟩] (fun _ _ => FetchResult.exc)
        [] none 1 3).trace.getD 0 ⟨0, "", 0, 0, 0, RowOutcome.failed⟩).backoffSleep
        = ((3 - 1 : ℕ) : ℚ) * (1 * 2)
    ∧ ((enrich_card_data [⟨"x1", "X"⟩] (fun _ _ => FetchResult.exc)
        [] none 1 3).trace.getD 0 ⟨0, "", 0, 0, 0, RowOutcome.failed⟩).rowSleep
        = 1 := by
  have h := retry_bound_transient [⟨"x1", "X"⟩] (fun _ _ => FetchResult.exc)
    [] none 1 3
  have hlen : (enrich_card_data [⟨"x1", "X"⟩] (fun _ _ => FetchResult.exc)
      [] none 1 3).trace.length = 1 := by
    rw [h.1]
    decide
  have hmem := getD_mem_of_lt
    (enrich_card_data [⟨"x1", "X"⟩] (fun _ _ => FetchResult.exc) [] none 1 3).trace
    0 ⟨0, "", 0, 0, 0, RowOutcome.failed⟩ (by rw [hlen]; decide)
  have ht := h.2 _ hmem (fun a => rfl)
  exact ⟨hlen, ht.1, ht.2.1, ht.2.2.1, ht.2.2.2⟩

/-- C5 counterexample: `get_card_by_id` maps a 404 response, a timeout, a
500 response and a request error all to the same `None` — its result does
not distinguish not-found from transient or fatal outcomes — and a caller
facing a permanent 404 re-fetches the identifier 3 times instead of
stopping after the first definitive not-found. -/
theorem client_notfound_counterexample :
    get_card_by_id (HttpOutcome.response 404 none) = none
    ∧ get_card_by_id HttpOutcome.timeout = none
    ∧ get_card_by_id (HttpOutcome.response 500 none) = none
    ∧ get_card_by_id HttpOutcome.requestError = none
    ∧ (enrich_card_data [⟨"nf", "NF"⟩]
          (fun _ a => clientFetch (fun _ => HttpOutcome.response 404 none) a)
          [] none 0 3).trace.map (fun t => t.attempts) = [3] := by
  refine ⟨rfl, rfl, rfl, rfl, ?_⟩
  decide

/-- C5 (amended). The client's fetch returns the decoded record exactly on
HTTP 200 with a parseable body and `None` for every other outcome —
not-found, transient and fatal alike — and the orchestrator retries a
`None` result up to `max_retries` attempts, definitive not-found
included. -/
theorem client_collapses_outcomes :
    (∀ r : HttpOutcome, (∃ j, get_card_by_id r = some j)
        ↔ (∃ j, r = HttpOutcome.response 200 (some j)))
    ∧ (∀ (env : Nat → HttpOutcome) (mr : Nat) (rl : ℚ),
        (∀ a, get_card_by_id (env a) = none) →
        retryFetch (clientFetch env) mr rl
          = (none, mr, ((mr - 1 : ℕ) : ℚ) * (rl * 2))) := by
  constructor
  · intro r
    constructor
    · rintro ⟨j, hj⟩
      unfold get_card_by_id at hj
      split at hj
      · exact ⟨_, rfl⟩
      · exact Option.noConfusion hj
    · rintro ⟨j, rfl⟩
      exact ⟨j, rfl⟩
  · intro env mr rl h
    refine retryFetch_noRecord _ mr rl (fun a => Or.inl ?_)
    simp [clientFetch, h a]

/-- C5 witness: against a service answering 404 forever, the loop makes
exactly 3 calls. -/
theorem client_collapses_outcomes_witness :
    retryFetch (clientFetch (fun _ => HttpOutcome.response 404 none)) 3 1
      = (none, 3, ((3 - 1 : ℕ) : ℚ) * (1 * 2)) :=
  client_collapses_outcomes.2 (fun _ => HttpOutcome.response 404 none) 3 1
    (fun _ => rfl)

/-- C1. Interrupting after the first checkpoint (10 successes) and
resuming: the checkpoint holds the first 10 identifiers, the resumed run
fetches only the remaining identifier (no re-fetch of the completed 10),
but its output table is NOT the uninterrupted run's — the skipped rows
come out with empty enrichment fields, because the resumed run rebuilds
the output from the raw input and never re-populates skipped rows. -/
theorem resume_loses_completed_rows :
    (enrichInterrupted resumeDf resumeFetch [] none 0 3 10).successes = 10
    ∧ (enrichInterrupted resumeDf resumeFetch [] none 0 3 10).savedFile
        = some resumeSaved
    ∧ (enrich_card_data resumeDf resumeFetch resumeSaved (some resumeSaved)
        0 3).trace.map (fun t => t.id) = ["c10"]
    ∧ ((enrich_card_data resumeDf resumeFetch resumeSaved (some resumeSaved)
        0 3).table.getD 0 []).getD 0 ("", JVal.jnull)
        = ("mana_cost", JVal.jstr "")
    ∧ ((enrich_card_data resumeDf resumeFetch [] none 0 3).table.getD 0
        []).getD 0 ("", JVal.jnull) = ("mana_cost", JVal.jstr "c0")
    ∧ (enrich_card_data resumeDf resumeFetch resumeSaved (some resumeSaved)
        0 3).table ≠ (enrich_card_data resumeDf resumeFetch [] none 0 3).table := by
  refine ⟨by decide, by decide, by decide, rfl, rfl, ?_⟩
  intro hEq
  have h1 := congrArg
    (fun tb : List (List (String × JVal)) =>
      (tb.getD 0 []).getD 0 ("", JVal.jnull)) hEq
  have h2 : (("mana_cost", JVal.jstr "") : String × JVal)
      = ("mana_cost", JVal.jstr "c0") := h1
  injection h2 with hk hv
  injection hv with hs
  exact absurd hs (by decide)

/-- C2. A fetched record whose field extraction raises internally is
nonetheless marked completed: the extractor swallows the exception and
returns the all-empty field set, so the orchestrator counts the row as a
success, merges empty fields, adds the identifier to the progress set and
persists it — against the claim that an extraction error never marks the
row done. -/
theorem extraction_error_marked_done :
    tryExtract malformedRecord = Except.error ()
    ∧ (enrich_card_data [⟨"m1", "M"⟩] (fun _ _ => FetchResult.ok malformedRecord)
        [] none 0 3).completed = ["m1"]
    ∧ (enrich_card_data [⟨"m1", "M"⟩] (fun _ _ => FetchResult.ok malformedRecord)
        [] none 0 3).successes = 1
    ∧ (enrich_card_data [⟨"m1", "M"⟩] (fun _ _ => FetchResult.ok malformedRecord)
        [] none 0 3).failures = 0
    ∧ (enrich_card_data [⟨"m1", "M"⟩] (fun _ _ => FetchResult.ok malformedRecord)
        [] none 0 3).savedFile = some ["m1"]
    ∧ (enrich_card_data [⟨"m1", "M"⟩] (fun _ _ => FetchResult.ok malformedRecord)
        [] none 0 3).table = [allEmptyFields] :=
  ⟨rfl, by decide, rfl, rfl, by decide, rfl⟩

/-- The final save of a full run always leaves a progress file. -/
theorem enrich_savedFile_isSome (df : List Row)
    (fetch : String → Nat → FetchResult) (completed0 : List String)
    (file0 : Option (List String)) (rl : ℚ) (mr : Nat) :
    (enrich_card_data df fetch completed0 file0 rl mr).savedFile.isSome = true := rfl

/-- C7. The progress file is deleted exactly when the run went end to end:
valid input, no interrupt, successful output write; and an interrupted run
leaves the file holding the last checkpoint of the partial run. -/
theorem progress_deleted_iff_completed (df : List Row)
    (fetch : String → Nat → FetchResult) (file0 : Option (List String))
    (rl : ℚ) (mr : Nat) (inputOk : Bool) (interruptAfter : Option Nat)
    (writeOk : Bool) :
    ((mainRun df fetch file0 rl mr inputOk interruptAfter writeOk).progressDeleted
        = true
      ↔ (inputOk = true ∧ interruptAfter = none ∧ writeOk = true))
    ∧ (∀ k, inputOk = true → interruptAfter = some k →
        (mainRun df fetch file0 rl mr inputOk interruptAfter writeOk).progressFile
          = (enrichInterrupted df fetch (file0.getD []) file0 rl mr k).savedFile) := by
  cases inputOk with
  | false =>
    constructor
    · simp [mainRun]
    · intro k hk
      exact absurd hk (by decide)
  | true =>
    cases interruptAfter with
    | some k2 =>
      constructor
      · simp [mainRun]
      · intro k _ hk
        injection hk with hk2
        subst hk2
        rfl
    | none =>
      constructor
      · cases writeOk with
        | false => simp [mainRun]
        | true => simp [mainRun, enrich_savedFile_isSome]
      · intro k _ hk
        exact Option.noConfusion hk

/-- C7 witness: an interrupted run at a concrete input keeps the last
checkpoint in the progress file. -/
theorem progress_deleted_iff_completed_witness :
    (mainRun [⟨"p1", "P"⟩] (fun _ _ => FetchResult.retNone) none 0 3 true
        (some 0) true).progressFile
      = (enrichInterrupted [⟨"p1", "P"⟩] (fun _ _ => FetchResult.retNone)
          [] none 0 3 0).savedFile :=
  (progress_deleted_iff_completed [⟨"p1", "P"⟩] (fun _ _ => FetchResult.retNone)
    none 0 3 true (some 0) true).2 0 rfl rfl

/-- C8 counterexample: an explicit but falsy flag value is overridden by
the configuration file — `--rate-limit 0` yields the config's rate limit,
`--max-retries 0` the config's retry count, and an explicit empty
`--log-file` the config's log file — so the flag does not always win. -/
theorem flag_zero_overridden :
    resolve_rate_limit 0 ⟨none, none, some 5, none⟩ = 5
    ∧ (5 : ℚ) ≠ 0
    ∧ resolve_max_retries 0 ⟨none, none, none, some 7⟩ = 7
    ∧ resolve_log_file (some "") ⟨none, some "cfg.log", none, none⟩
        = some "cfg.log" := by
  refine ⟨by norm_num [resolve_rate_limit], by norm_num, ?_, rfl⟩
  norm_num [resolve_max_retries]

/-- C8 (amended). Configuration precedence holds for truthy flag values:
whenever the explicit flag value is non-empty (strings) or non-zero
(numbers), it overrides whatever the configuration file supplies. -/
theorem config_flag_precedence :
    (∀ (arg : String) (cfg : ConfigJson), arg ≠ "" →
        resolve_log_level arg cfg = arg)
    ∧ (∀ (s : String) (cfg : ConfigJson), s ≠ "" →
        resolve_log_file (some s) cfg = some s)
    ∧ (∀ (arg : ℚ) (cfg : ConfigJson), arg ≠ 0 →
        resolve_rate_limit arg cfg = arg)
    ∧ (∀ (arg : Nat) (cfg : ConfigJson), arg ≠ 0 →
        resolve_max_retries arg cfg = arg) := by
  refine ⟨?_, ?_, ?_, ?_⟩ <;> intro a cfg h <;>
    simp [resolve_log_level, resolve_log_file, resolve_rate_limit,
      resolve_max_retries, h]

/-- C8 witness: concrete truthy flags beat a conflicting config. -/
theorem config_flag_precedence_witness :
    resolve_rate_limit 2 ⟨none, none, some 5, none⟩ = 2
    ∧ resolve_log_level "DEBUG" ⟨some "ERROR", none, none, none⟩ = "DEBUG" :=
  ⟨config_flag_precedence.2.2.1 2 ⟨none, none, some 5, none⟩ (by norm_num),
   config_flag_precedence.1 "DEBUG" ⟨some "ERROR", none, none, none⟩ (by decide)⟩

/-- C9 counterexample: a parseable progress document whose
`completed_cards` is a string — invalid content for the schema — is
interpreted character by character with no warning, yielding a NON-empty
completed set instead of the claimed empty set plus warning. -/
theorem progress_invalid_content_kept :
    load_progress (ProgressFile.parsed
        (JVal.jobj [("completed_cards", JVal.jstr "ab")]))
      = ([JVal.jstr "a", JVal.jstr "b"], false)
    ∧ ([JVal.jstr "a", JVal.jstr "b"] : List JVal) ≠ [] := by
  refine ⟨rfl, ?_⟩
  simp

/-- C9 (amended). A missing progress file yields the empty set silently;
unparseable content, or parsed content whose interpretation raises (a
non-dictionary document, a non-iterable or unhashable `completed_cards`),
yields the empty set with a logged warning — never a propagated
exception; but parsed content that happens to be interpretable (such as a
string) is kept as-is without a warning. -/
theorem progress_load_tolerant :
    load_progress ProgressFile.missing = ([], false)
    ∧ load_progress ProgressFile.unparseable = ([], true)
    ∧ (∀ j : JVal, loadInterp j = Except.error () →
        load_progress (ProgressFile.parsed j) = ([], true)) := by
  refine ⟨rfl, rfl, ?_⟩
  intro j h
  simp [load_progress, h]

/-- C9 witness: a document that is a bare number raises at `.get`; the
loader returns the empty set and warns. -/
theorem progress_load_tolerant_witness :
    load_progress (ProgressFile.parsed (JVal.jnum 7)) = ([], true) :=
  progress_load_tolerant.2.2 (JVal.jnum 7) rfl

end MtgEnrich
